import Mathlib

/-!
Verification development for the GitNexus ingestion pipeline.

The pure functions of the repository are embedded shallowly:

* `getLanguageFromFilename` follows `src/core/ingestion/utils.ts`;
* `detectFrameworkFromPath` / `detectFrameworkFromAST` follow
  `src/core/ingestion/framework-detection.ts`;
* the knowledge-graph core, symbol table, call processor, entry-point
  scorer, process processor and CSV serialisation are modelled from the
  specification (their implementation files are not part of the source
  tree; only their unit tests are), as documented on each definition.

Strings are handled through their underlying character lists so that
suffix / infix reasoning stays elementary and decidable.
-/

namespace GitNexus

/-- Language tags of `SupportedLanguages` (src/config/supported-languages.ts,
as referenced by `src/core/ingestion/utils.ts`). -/
inductive SupportedLanguages where
  | TypeScript
  | JavaScript
  | Python
  | Java
  | C
  | CPlusPlus
  | CSharp
  | Go
  | Rust
  | Kotlin
  | PHP
  deriving DecidableEq, Repr

/-- Boolean suffix test on character lists (the shallow counterpart of
JavaScript `String.prototype.endsWith`). -/
def endsWithChars (l suffix : List Char) : Bool := decide (suffix <:+ l)

/-- The ordered extension table of `getLanguageFromFilename`
(src/core/ingestion/utils.ts, lines 29-60): the source is a chain of
`endsWith` tests tried top to bottom; the table preserves that order and
the lookup takes the first match. -/
def extensionTable : List (List Char × SupportedLanguages) :=
  [ (".tsx".data, .TypeScript), (".ts".data, .TypeScript),
    (".jsx".data, .JavaScript), (".js".data, .JavaScript),
    (".py".data, .Python),
    (".java".data, .Java),
    (".c".data, .C), (".h".data, .C),
    (".cpp".data, .CPlusPlus), (".cc".data, .CPlusPlus), (".cxx".data, .CPlusPlus),
    (".hpp".data, .CPlusPlus), (".hxx".data, .CPlusPlus), (".hh".data, .CPlusPlus),
    (".cs".data, .CSharp),
    (".go".data, .Go),
    (".rs".data, .Rust),
    (".kt".data, .Kotlin), (".kts".data, .Kotlin),
    (".php".data, .PHP), (".phtml".data, .PHP), (".php3".data, .PHP),
    (".php4".data, .PHP), (".php5".data, .PHP), (".php8".data, .PHP) ]

/-- Character-list core of the language classifier. -/
def getLanguageFromFilenameChars (l : List Char) : Option SupportedLanguages :=
  (extensionTable.find? (fun p => endsWithChars l p.1)).map (·.2)

/-- Function `getLanguageFromFilename` of src/core/ingestion/utils.ts: map a file
name to a language tag by testing the extension chain in source order;
unmatched names yield `none`. -/
def getLanguageFromFilename (filename : String) : Option SupportedLanguages :=
  getLanguageFromFilenameChars filename.data

/-- Two suffix candidates of the same list are comparable; hence a match
of `b` at the end of `a ++ c` forces `b` and `c` to be comparable. -/
theorem suffix_comparable_of_endsWith {a c b : List Char}
    (h : endsWithChars (a ++ c) b = true) : b <:+ c ∨ c <:+ b := by
  have hb : b <:+ a ++ c := of_decide_eq_true h
  have h1 : b.reverse <+: (a ++ c).reverse := List.reverse_prefix.mpr hb
  have h2 : c.reverse <+: (a ++ c).reverse :=
    List.reverse_prefix.mpr (List.suffix_append a c)
  rcases List.prefix_or_prefix_of_prefix h1 h2 with h3 | h3
  · exact Or.inl (List.reverse_prefix.mp h3)
  · exact Or.inr (List.reverse_prefix.mp h3)

/-- Prepending arbitrary characters does not change an `endsWith` test
whose pattern is never strictly extended by the fixed tail `c`. -/
theorem endsWithChars_append_eq {a c b : List Char} (h : c <:+ b → b <:+ c) :
    endsWithChars (a ++ c) b = endsWithChars c b := by
  by_cases hb : b <:+ c
  · have h1 : endsWithChars (a ++ c) b = true :=
      decide_eq_true (hb.trans (List.suffix_append a c))
    have h2 : endsWithChars c b = true := decide_eq_true hb
    rw [h1, h2]
  · have h2 : endsWithChars c b = false := decide_eq_false hb
    rw [h2]
    cases hE : endsWithChars (a ++ c) b
    · rfl
    · rcases suffix_comparable_of_endsWith hE with h3 | h3
      · exact absurd h3 hb
      · exact absurd (h h3) hb

/-- Lifting `endsWithChars_append_eq` through the first-match search over
an extension table. -/
theorem find?_endsWith_append (a c : List Char)
    (tbl : List (List Char × SupportedLanguages))
    (H : ∀ p ∈ tbl, c <:+ p.1 → p.1 <:+ c) :
    tbl.find? (fun p => endsWithChars (a ++ c) p.1)
      = tbl.find? (fun p => endsWithChars c p.1) := by
  induction tbl with
  | nil => rfl
  | cons hd tl ih =>
    have hhd : c <:+ hd.1 → hd.1 <:+ c := H hd (List.mem_cons_self hd tl)
    have hih := ih (fun p hp => H p (List.mem_cons_of_mem hd hp))
    simp only [List.find?]
    rw [endsWithChars_append_eq hhd]
    cases endsWithChars c hd.1
    · exact hih
    · rfl

/-- The classifier only looks at a bounded suffix: appending a fixed tail
`c` that never strictly extends a table pattern makes the result depend on
`c` alone. -/
theorem getLanguageFromFilename_append (s c : String)
    (H : ∀ p ∈ extensionTable, c.data <:+ p.1 → p.1 <:+ c.data) :
    getLanguageFromFilename (s ++ c) = getLanguageFromFilename c := by
  unfold getLanguageFromFilename getLanguageFromFilenameChars
  rw [String.data_append, find?_endsWith_append _ _ _ H]

/-- Claim C10: `getLanguageFromFilename` returns `none` for every filename
ending in `".swift"`; Swift is absent from the extension table of the
classifier, so Swift sources are dropped at language classification. -/
theorem getLanguageFromFilename_swift_none (s : String) :
    getLanguageFromFilename (s ++ ".swift") = none := by
  rw [getLanguageFromFilename_append s ".swift" (by decide)]
  decide

/-- Claim C4, counterexample: the extension comparison is case-sensitive,
not case-insensitive: `"file.ts"` is classified as TypeScript while
`"file.TS"` is not classified at all. -/
theorem getLanguageFromFilename_case_counterexample :
    getLanguageFromFilename "file.ts" = some SupportedLanguages.TypeScript ∧
    getLanguageFromFilename "file.TS" = none := by
  constructor
  · decide
  · decide

/-- Claim C4 (amended): the result of the classifier depends only on the file
extension compared case-sensitively: lowercase supported extensions map
to their language tag, while uppercase or mixed-case variants (such as
`".TS"`, `".Py"`) and unknown extensions yield `none`. -/
theorem getLanguageFromFilename_case_sensitive (s : String) :
    getLanguageFromFilename (s ++ ".ts") = some SupportedLanguages.TypeScript ∧
    getLanguageFromFilename (s ++ ".TS") = none ∧
    getLanguageFromFilename (s ++ ".py") = some SupportedLanguages.Python ∧
    getLanguageFromFilename (s ++ ".Py") = none ∧
    getLanguageFromFilename (s ++ ".rb") = none := by
  refine ⟨?_, ?_, ?_, ?_, ?_⟩
  · rw [getLanguageFromFilename_append s ".ts" (by decide)]; decide
  · rw [getLanguageFromFilename_append s ".TS" (by decide)]; decide
  · rw [getLanguageFromFilename_append s ".py" (by decide)]; decide
  · rw [getLanguageFromFilename_append s ".Py" (by decide)]; decide
  · rw [getLanguageFromFilename_append s ".rb" (by decide)]; decide

/-! ## Framework detection (src/core/ingestion/framework-detection.ts) -/

/-- ASCII lowercasing of a string, the shallow counterpart of
JavaScript `toLowerCase` on the identifiers and paths the detector sees. -/
def lowerStr (s : String) : String := ⟨s.data.map Char.toLower⟩

/-- Substring test, the counterpart of JavaScript `String.includes`. -/
def strIncludes (s pat : String) : Bool := decide (pat.data <:+: s.data)

/-- Suffix test on strings. -/
def strEndsWith (s pat : String) : Bool := endsWithChars s.data pat.data

/-- Prefix test on strings. -/
def strStartsWith (s pat : String) : Bool := decide (pat.data <+: s.data)

/-- Backslash-to-slash normalisation, `replace(/\\/g, '/')`. -/
def slashify (s : String) : String :=
  ⟨s.data.map (fun c => if c = '\\' then '/' else c)⟩

/-- Record `FrameworkHint` of framework-detection.ts. -/
structure FrameworkHint where
  framework : String
  entryPointMultiplier : ℚ
  reason : String
  deriving DecidableEq, Repr

/-- Last path segment, `p.split('/').pop() || ''`. -/
def lastSegment (l : List Char) : List Char :=
  ((l.reverse.takeWhile (fun c => c ≠ '/')).reverse)

/-- The regex test `/^[A-Z]/` on the first character of a segment. -/
def firstCharUpper (l : List Char) : Bool :=
  match l with
  | [] => false
  | c :: _ => decide ('A' ≤ c) && decide (c ≤ 'Z')

/-- Function `detectFrameworkFromPath` of framework-detection.ts, lines 33-364:
lowercase the path, normalise backslashes, ensure a leading slash, then
try the fixed rule chain in source order and return the first match. -/
def detectFrameworkFromPath (filePath : String) : Option FrameworkHint :=
  let p0 := slashify (lowerStr filePath)
  let p := if strStartsWith p0 "/" then p0 else "/" ++ p0
  if strIncludes p "/pages/" && !strIncludes p "/_" && !strIncludes p "/api/" &&
      (strEndsWith p ".tsx" || strEndsWith p ".ts" || strEndsWith p ".jsx" || strEndsWith p ".js") then
    some ⟨"nextjs-pages", 3, "nextjs-page"⟩
  else if strIncludes p "/app/" && (strEndsWith p "page.tsx" || strEndsWith p "page.ts" ||
      strEndsWith p "page.jsx" || strEndsWith p "page.js") then
    some ⟨"nextjs-app", 3, "nextjs-app-page"⟩
  else if strIncludes p "/pages/api/" ||
      (strIncludes p "/app/" && strIncludes p "/api/" && strEndsWith p "route.ts") then
    some ⟨"nextjs-api", 3, "nextjs-api-route"⟩
  else if strIncludes p "/app/" && (strEndsWith p "layout.tsx" || strEndsWith p "layout.ts") then
    some ⟨"nextjs-app", 2, "nextjs-layout"⟩
  else if strIncludes p "/routes/" && (strEndsWith p ".ts" || strEndsWith p ".js") then
    some ⟨"express", 5/2, "routes-folder"⟩
  else if strIncludes p "/controllers/" && (strEndsWith p ".ts" || strEndsWith p ".js") then
    some ⟨"mvc", 5/2, "controllers-folder"⟩
  else if strIncludes p "/handlers/" && (strEndsWith p ".ts" || strEndsWith p ".js") then
    some ⟨"handlers", 5/2, "handlers-folder"⟩
  else if (strIncludes p "/components/" || strIncludes p "/views/") &&
      (strEndsWith p ".tsx" || strEndsWith p ".jsx") && firstCharUpper (lastSegment p.data) then
    some ⟨"react", 3/2, "react-component"⟩
  else if strEndsWith p "views.py" then
    some ⟨"django", 3, "django-views"⟩
  else if strEndsWith p "urls.py" then
    some ⟨"django", 2, "django-urls"⟩
  else if (strIncludes p "/routers/" || strIncludes p "/endpoints/" || strIncludes p "/routes/") &&
      strEndsWith p ".py" then
    some ⟨"fastapi", 5/2, "api-routers"⟩
  else if strIncludes p "/api/" && strEndsWith p ".py" && !strEndsWith p "__init__.py" then
    some ⟨"python-api", 2, "api-folder"⟩
  else if (strIncludes p "/controller/" || strIncludes p "/controllers/") && strEndsWith p ".java" then
    some ⟨"spring", 3, "spring-controller"⟩
  else if strEndsWith p "controller.java" then
    some ⟨"spring", 3, "spring-controller-file"⟩
  else if (strIncludes p "/service/" || strIncludes p "/services/") && strEndsWith p ".java" then
    some ⟨"java-service", 9/5, "java-service"⟩
  else if (strIncludes p "/controller/" || strIncludes p "/controllers/") && strEndsWith p ".kt" then
    some ⟨"spring-kotlin", 3, "spring-kotlin-controller"⟩
  else if strEndsWith p "controller.kt" then
    some ⟨"spring-kotlin", 3, "spring-kotlin-controller-file"⟩
  else if strIncludes p "/routes/" && strEndsWith p ".kt" then
    some ⟨"ktor", 5/2, "ktor-routes"⟩
  else if strIncludes p "/plugins/" && strEndsWith p ".kt" then
    some ⟨"ktor", 2, "ktor-plugin"⟩
  else if strEndsWith p "routing.kt" || strEndsWith p "routes.kt" then
    some ⟨"ktor", 5/2, "ktor-routing-file"⟩
  else if (strIncludes p "/activity/" || strIncludes p "/ui/") && strEndsWith p ".kt" then
    some ⟨"android-kotlin", 5/2, "android-ui"⟩
  else if strEndsWith p "activity.kt" || strEndsWith p "fragment.kt" then
    some ⟨"android-kotlin", 5/2, "android-component"⟩
  else if strEndsWith p "/main.kt" then
    some ⟨"kotlin", 3, "kotlin-main"⟩
  else if strEndsWith p "/application.kt" then
    some ⟨"kotlin", 5/2, "kotlin-application"⟩
  else if strIncludes p "/controllers/" && strEndsWith p ".cs" then
    some ⟨"aspnet", 3, "aspnet-controller"⟩
  else if strEndsWith p "controller.cs" then
    some ⟨"aspnet", 3, "aspnet-controller-file"⟩
  else if strIncludes p "/pages/" && strEndsWith p ".razor" then
    some ⟨"blazor", 5/2, "blazor-page"⟩
  else if (strIncludes p "/handlers/" || strIncludes p "/handler/") && strEndsWith p ".go" then
    some ⟨"go-http", 5/2, "go-handlers"⟩
  else if strIncludes p "/routes/" && strEndsWith p ".go" then
    some ⟨"go-http", 5/2, "go-routes"⟩
  else if strIncludes p "/controllers/" && strEndsWith p ".go" then
    some ⟨"go-mvc", 5/2, "go-controller"⟩
  else if strEndsWith p "/main.go" || (strEndsWith p "/cmd/" && strEndsWith p ".go") then
    some ⟨"go", 3, "go-main"⟩
  else if (strIncludes p "/handlers/" || strIncludes p "/routes/") && strEndsWith p ".rs" then
    some ⟨"rust-web", 5/2, "rust-handlers"⟩
  else if strEndsWith p "/main.rs" then
    some ⟨"rust", 3, "rust-main"⟩
  else if strIncludes p "/bin/" && strEndsWith p ".rs" then
    some ⟨"rust", 5/2, "rust-bin"⟩
  else if strEndsWith p "/main.c" || strEndsWith p "/main.cpp" || strEndsWith p "/main.cc" then
    some ⟨"c-cpp", 3, "c-main"⟩
  else if strIncludes p "/src/" && (strEndsWith p "/app.c" || strEndsWith p "/app.cpp") then
    some ⟨"c-cpp", 5/2, "c-app"⟩
  else if strIncludes p "/routes/" && strEndsWith p ".php" then
    some ⟨"laravel", 3, "laravel-routes"⟩
  else if (strIncludes p "/http/controllers/" || strIncludes p "/controllers/") && strEndsWith p ".php" then
    some ⟨"laravel", 3, "laravel-controller"⟩
  else if strEndsWith p "controller.php" then
    some ⟨"laravel", 3, "laravel-controller-file"⟩
  else if (strIncludes p "/console/commands/" || strIncludes p "/commands/") && strEndsWith p ".php" then
    some ⟨"laravel", 5/2, "laravel-command"⟩
  else if strIncludes p "/jobs/" && strEndsWith p ".php" then
    some ⟨"laravel", 5/2, "laravel-job"⟩
  else if strIncludes p "/listeners/" && strEndsWith p ".php" then
    some ⟨"laravel", 5/2, "laravel-listener"⟩
  else if strIncludes p "/http/middleware/" && strEndsWith p ".php" then
    some ⟨"laravel", 5/2, "laravel-middleware"⟩
  else if strIncludes p "/providers/" && strEndsWith p ".php" then
    some ⟨"laravel", 9/5, "laravel-provider"⟩
  else if strIncludes p "/policies/" && strEndsWith p ".php" then
    some ⟨"laravel", 2, "laravel-policy"⟩
  else if strIncludes p "/models/" && strEndsWith p ".php" then
    some ⟨"laravel", 3/2, "laravel-model"⟩
  else if strIncludes p "/services/" && strEndsWith p ".php" then
    some ⟨"laravel", 9/5, "laravel-service"⟩
  else if strIncludes p "/repositories/" && strEndsWith p ".php" then
    some ⟨"laravel", 3/2, "laravel-repository"⟩
  else if strEndsWith p "/appdelegate.swift" || strEndsWith p "/scenedelegate.swift" ||
      strEndsWith p "/app.swift" then
    some ⟨"ios", 3, "ios-app-entry"⟩
  else if strEndsWith p "app.swift" && strIncludes p "/sources/" then
    some ⟨"swiftui", 3, "swiftui-app"⟩
  else if (strIncludes p "/viewcontrollers/" || strIncludes p "/controllers/" ||
      strIncludes p "/screens/") && strEndsWith p ".swift" then
    some ⟨"uikit", 5/2, "uikit-viewcontroller"⟩
  else if strEndsWith p "viewcontroller.swift" || strEndsWith p "vc.swift" then
    some ⟨"uikit", 5/2, "uikit-viewcontroller-file"⟩
  else if strIncludes p "/coordinators/" && strEndsWith p ".swift" then
    some ⟨"ios-coordinator", 5/2, "ios-coordinator"⟩
  else if strEndsWith p "coordinator.swift" then
    some ⟨"ios-coordinator", 5/2, "ios-coordinator-file"⟩
  else if (strIncludes p "/views/" || strIncludes p "/scenes/") && strEndsWith p ".swift" then
    some ⟨"swiftui", 9/5, "swiftui-view"⟩
  else if strIncludes p "/services/" && strEndsWith p ".swift" then
    some ⟨"ios-service", 9/5, "ios-service"⟩
  else if strIncludes p "/router/" && strEndsWith p ".swift" then
    some ⟨"ios-router", 2, "ios-router"⟩
  else if strIncludes p "/api/" && (strEndsWith p "/index.ts" || strEndsWith p "/index.js" ||
      strEndsWith p "/__init__.py") then
    some ⟨"api", 9/5, "api-index"⟩
  else
    none

/-- The pattern groups of the `FRAMEWORK_AST_PATTERNS` constant
(framework-detection.ts, lines 374-406). -/
def nestjsPatterns : List String := ["@Controller", "@Get", "@Post", "@Put", "@Delete", "@Patch"]

def expressPatterns : List String :=
  ["app.get", "app.post", "app.put", "app.delete", "router.get", "router.post"]

def fastapiPatterns : List String :=
  ["@app.get", "@app.post", "@app.put", "@app.delete", "@router.get"]

def flaskPatterns : List String := ["@app.route", "@blueprint.route"]

def springPatterns : List String :=
  ["@RestController", "@Controller", "@GetMapping", "@PostMapping", "@RequestMapping"]

def jaxrsPatterns : List String := ["@Path", "@GET", "@POST", "@PUT", "@DELETE"]

def aspnetPatterns : List String := ["[ApiController]", "[HttpGet]", "[HttpPost]", "[Route]"]

def goHttpPatterns : List String := ["http.Handler", "http.HandlerFunc", "ServeHTTP"]

def laravelPatterns : List String :=
  ["Route::get", "Route::post", "Route::put", "Route::delete",
   "Route::resource", "Route::apiResource", "#[Route("]

def uikitPatterns : List String :=
  ["viewDidLoad", "viewWillAppear", "viewDidAppear", "UIViewController"]

def swiftuiPatterns : List String :=
  ["@main", "WindowGroup", "ContentView", "@StateObject", "@ObservedObject"]

def combinePatterns : List String := ["sink", "assign", "Publisher", "Subscriber"]

/-- Per-config entry of `AST_FRAMEWORK_PATTERNS_BY_LANGUAGE`. -/
structure AstFrameworkPatternConfig where
  framework : String
  entryPointMultiplier : ℚ
  reason : String
  patterns : List String
  deriving DecidableEq, Repr

/-- Table `AST_FRAMEWORK_PATTERNS_BY_LANGUAGE` (framework-detection.ts, lines
415-442): the curated per-language table consulted by
`detectFrameworkFromAST`.  Its keys are exactly javascript, typescript,
python, java, kotlin, csharp and php; in particular swift is absent even
though `FRAMEWORK_AST_PATTERNS` has uikit/swiftui/combine groups. -/
def AST_FRAMEWORK_PATTERNS_BY_LANGUAGE : List (String × List AstFrameworkPatternConfig) :=
  [ ("javascript", [⟨"nestjs", 16/5, "nestjs-decorator", nestjsPatterns⟩]),
    ("typescript", [⟨"nestjs", 16/5, "nestjs-decorator", nestjsPatterns⟩]),
    ("python",
      [⟨"fastapi", 3, "fastapi-decorator", fastapiPatterns⟩,
       ⟨"flask", 14/5, "flask-decorator", flaskPatterns⟩]),
    ("java",
      [⟨"spring", 16/5, "spring-annotation", springPatterns⟩,
       ⟨"jaxrs", 3, "jaxrs-annotation", jaxrsPatterns⟩]),
    ("kotlin",
      [⟨"spring-kotlin", 16/5, "spring-kotlin-annotation", springPatterns⟩,
       ⟨"jaxrs", 3, "jaxrs-annotation", jaxrsPatterns⟩,
       ⟨"ktor", 14/5, "ktor-routing", ["routing", "embeddedServer", "Application.module"]⟩,
       ⟨"android-kotlin", 5/2, "android-annotation",
        ["@AndroidEntryPoint", "AppCompatActivity", "Fragment("]⟩]),
    ("csharp", [⟨"aspnet", 16/5, "aspnet-attribute", aspnetPatterns⟩]),
    ("php", [⟨"laravel", 3, "php-route-attribute", laravelPatterns⟩]) ]

/-- Table `AST_PATTERNS_LOWERED`: the same table with every pattern lowercased. -/
def AST_PATTERNS_LOWERED : List (String × List AstFrameworkPatternConfig) :=
  AST_FRAMEWORK_PATTERNS_BY_LANGUAGE.map
    (fun e => (e.1, e.2.map
      (fun cfg => ⟨cfg.framework, cfg.entryPointMultiplier, cfg.reason,
                   cfg.patterns.map lowerStr⟩)))

/-- Function `detectFrameworkFromAST` (framework-detection.ts, lines 458-482):
guard against empty inputs, look the lowercased language up in the
lowered table, then return the first config one of whose patterns occurs
in the lowercased definition text. -/
def detectFrameworkFromAST (language definitionText : String) : Option FrameworkHint :=
  if language == "" || definitionText == "" then none
  else
    match (AST_PATTERNS_LOWERED.find? (fun e => e.1 == lowerStr language)).map (·.2) with
    | none => none
    | some configs =>
      (configs.find? (fun cfg =>
        cfg.patterns.any (fun pat => strIncludes (lowerStr definitionText) pat))).map
        (fun cfg => ⟨cfg.framework, cfg.entryPointMultiplier, cfg.reason⟩)

/-- Claim C5, counterexample: a Swift definition text containing
`viewDidLoad` does not produce a uikit hint; `detectFrameworkFromAST`
returns `none` for language swift. -/
theorem detectFrameworkFromAST_swift_counterexample :
    detectFrameworkFromAST "swift" "override func viewDidLoad()" = none := by
  decide

/-- Claim C5 (amended): swift is absent from the per-language AST pattern
table, so `detectFrameworkFromAST` returns `none` for language swift on
every definition text, `viewDidLoad` included; languages present in the
table (java shown) do produce their hint. -/
theorem detectFrameworkFromAST_swift_none (text : String) :
    detectFrameworkFromAST "swift" text = none ∧
    detectFrameworkFromAST "java" "@RestController" =
      some ⟨"spring", 16/5, "spring-annotation"⟩ := by
  constructor
  · unfold detectFrameworkFromAST
    by_cases ht : text = ""
    · simp [ht]
    · have hfind : (AST_PATTERNS_LOWERED.find? (fun e => e.1 == lowerStr "swift")) = none := by
        rfl
      simp [ht, hfind]
  · rfl

/-! ## Graph core (C15)

Modelled from the spec: the implementation file `src/core/graph/graph.ts`
is not part of the source tree (only `test/unit/graph.test.ts` is).  The
model follows spec section 4.14 and the data model of section 3:
insertion-ordered node and relationship lists, `addNode` idempotent on id
with first write winning, `addRelationship` idempotent on the id derived
from `(sourceId, type, targetId)`, `removeNode` dropping the node and its
incident edges, and `removeNodesByFile` removing node by node the ids
whose `properties.filePath` matches. -/

/-- Property bag of a graph node (the fields the modelled stages read). -/
structure NodeProps where
  name : String
  filePath : String
  isExported : Bool
  deriving DecidableEq, Repr

/-- A typed graph node. -/
structure GraphNode where
  id : String
  label : String
  properties : NodeProps
  deriving DecidableEq, Repr

/-- A typed relationship; its identity is `(sourceId, type, targetId)`. -/
structure GraphRelationship where
  sourceId : String
  targetId : String
  type : String
  confidence : ℚ
  reason : String
  deriving DecidableEq, Repr

/-- The in-memory knowledge graph. -/
structure KnowledgeGraph where
  nodes : List GraphNode
  rels : List GraphRelationship
  deriving DecidableEq, Repr

def emptyGraph : KnowledgeGraph := ⟨[], []⟩

def containsNodeId (g : KnowledgeGraph) (nid : String) : Bool :=
  g.nodes.any (fun n => n.id == nid)

/-- Modelled from the spec: `addNode` is idempotent on id, first write wins. -/
def addNode (g : KnowledgeGraph) (n : GraphNode) : KnowledgeGraph :=
  if containsNodeId g n.id then g else ⟨g.nodes ++ [n], g.rels⟩

def getNode (g : KnowledgeGraph) (nid : String) : Option GraphNode :=
  g.nodes.find? (fun n => n.id == nid)

/-- Whether an edge with the same `(sourceId, type, targetId)`-derived id
is already stored. -/
def containsRelKey (g : KnowledgeGraph) (r : GraphRelationship) : Bool :=
  g.rels.any (fun r2 => r2.sourceId == r.sourceId && r2.type == r.type && r2.targetId == r.targetId)

/-- Modelled from the spec: `addRelationship` is idempotent on the derived id. -/
def addRelationship (g : KnowledgeGraph) (r : GraphRelationship) : KnowledgeGraph :=
  if containsRelKey g r then g else ⟨g.nodes, g.rels ++ [r]⟩

def nodeCount (g : KnowledgeGraph) : Nat := g.nodes.length

def relationshipCount (g : KnowledgeGraph) : Nat := g.rels.length

/-- Modelled from the spec: `removeNode` returns whether a node was
removed and drops the node together with every incident edge. -/
def removeNode (g : KnowledgeGraph) (nid : String) : Bool × KnowledgeGraph :=
  if containsNodeId g nid then
    (true,
     ⟨g.nodes.filter (fun n => !(n.id == nid)),
      g.rels.filter (fun r => !(r.sourceId == nid) && !(r.targetId == nid))⟩)
  else (false, g)

/-- Ids of the nodes whose `properties.filePath` equals `p` (the by-file
secondary index consulted by `removeNodesByFile`). -/
def removedIdSet (g : KnowledgeGraph) (p : String) : List String :=
  (g.nodes.filter (fun n => n.properties.filePath == p)).map (fun n => n.id)

/-- One step of `removeNodesByFile`: remove a single id, counting
successful removals. -/
def removeStep (acc : Nat × KnowledgeGraph) (nid : String) : Nat × KnowledgeGraph :=
  let r := removeNode acc.2 nid
  (acc.1 + (if r.1 then 1 else 0), r.2)

/-- Modelled from the spec: `removeNodesByFile` removes, one by one, every
node whose `filePath` matches, and returns how many nodes were removed. -/
def removeNodesByFile (g : KnowledgeGraph) (p : String) : Nat × KnowledgeGraph :=
  (removedIdSet g p).foldl removeStep (0, g)

/-- Claim C6: adding a node whose id is already present leaves `nodeCount`
unchanged and keeps the originally stored node (first write wins), and
adding a relationship whose `(sourceId, type, targetId)`-derived id is
already present leaves `relationshipCount` unchanged. -/
theorem addNode_addRelationship_duplicate_noop :
    (∀ (g : KnowledgeGraph) (n : GraphNode), containsNodeId g n.id = true →
      nodeCount (addNode g n) = nodeCount g ∧ getNode (addNode g n) n.id = getNode g n.id) ∧
    (∀ (g : KnowledgeGraph) (r : GraphRelationship), containsRelKey g r = true →
      relationshipCount (addRelationship g r) = relationshipCount g) := by
  constructor
  · intro g n h
    rw [addNode, if_pos h]
    exact ⟨rfl, rfl⟩
  · intro g r h
    rw [addRelationship, if_pos h]

/-- Concrete graph for the C6 witness: node `fn:foo` and one edge, as in
the duplicate-insertion unit tests. -/
def nodeFoo : GraphNode := ⟨"fn:foo", "Function", ⟨"foo", "src/test.ts", false⟩⟩

/-- Same id as `nodeFoo`, different name: the second write must lose. -/
def nodeFoo2 : GraphNode := ⟨"fn:foo", "Function", ⟨"bar", "src/test.ts", false⟩⟩

def nodeBar : GraphNode := ⟨"fn:bar", "Function", ⟨"bar", "src/test.ts", false⟩⟩

def relFooBar : GraphRelationship := ⟨"fn:foo", "fn:bar", "CALLS", 1, ""⟩

def graphC6 : KnowledgeGraph :=
  addRelationship (addNode (addNode emptyGraph nodeFoo) nodeBar) relFooBar

/-- Witness for C6 at a concrete graph. -/
theorem addNode_addRelationship_duplicate_noop_witness :
    nodeCount (addNode graphC6 nodeFoo2) = nodeCount graphC6 ∧
    getNode (addNode graphC6 nodeFoo2) nodeFoo2.id = getNode graphC6 nodeFoo2.id ∧
    relationshipCount (addRelationship graphC6 relFooBar) = relationshipCount graphC6 := by
  have h1 := addNode_addRelationship_duplicate_noop.1 graphC6 nodeFoo2 (by rfl)
  have h2 := addNode_addRelationship_duplicate_noop.2 graphC6 relFooBar (by rfl)
  exact ⟨h1.1, h1.2, h2⟩

/-- Folding single-node removals over a duplicate-free list of present ids
behaves like one simultaneous filter, and every removal succeeds. -/
theorem foldl_removeStep_spec :
    ∀ (l : List String) (c0 : Nat) (g : KnowledgeGraph),
    l.Nodup → (∀ nid ∈ l, containsNodeId g nid = true) →
    (l.foldl removeStep (c0, g)).1 = c0 + l.length ∧
    (l.foldl removeStep (c0, g)).2.nodes
      = g.nodes.filter (fun n => !(l.contains n.id)) ∧
    (l.foldl removeStep (c0, g)).2.rels
      = g.rels.filter (fun r => !(l.contains r.sourceId) && !(l.contains r.targetId)) := by
  intro l
  induction l with
  | nil =>
    intro c0 g _ _
    simp [List.foldl]
  | cons nid tl ih =>
    intro c0 g hnd hpres
    have hmem : containsNodeId g nid = true := hpres nid (List.mem_cons_self nid tl)
    have hstep : removeStep (c0, g) nid
        = (c0 + 1,
           ⟨g.nodes.filter (fun n => !(n.id == nid)),
            g.rels.filter (fun r => !(r.sourceId == nid) && !(r.targetId == nid))⟩) := by
      simp [removeStep, removeNode, hmem]
    set g1 : KnowledgeGraph :=
      ⟨g.nodes.filter (fun n => !(n.id == nid)),
       g.rels.filter (fun r => !(r.sourceId == nid) && !(r.targetId == nid))⟩ with hg1
    have hnd' : tl.Nodup := hnd.of_cons
    have hnin : nid ∉ tl := (List.nodup_cons.mp hnd).1
    have hpres' : ∀ x ∈ tl, containsNodeId g1 x = true := by
      intro x hx
      have hxg : containsNodeId g x = true := hpres x (List.mem_cons_of_mem nid hx)
      rcases List.any_eq_true.mp hxg with ⟨n, hn, hid⟩
      have hxne : x ≠ nid := fun h => hnin (h ▸ hx)
      have hnne : (!(n.id == nid)) = true := by
        have : n.id = x := by simpa using hid
        simp [this, hxne]
      refine List.any_eq_true.mpr ⟨n, ?_, hid⟩
      simp only [hg1]
      exact List.mem_filter.mpr ⟨hn, hnne⟩
    have ihh := ih (c0 + 1) g1 hnd' hpres'
    have hfold : (nid :: tl).foldl removeStep (c0, g) = tl.foldl removeStep (c0 + 1, g1) := by
      simp [List.foldl, hstep]
    refine ⟨?_, ?_, ?_⟩
    · rw [hfold, ihh.1]
      simp [Nat.add_assoc, Nat.add_comm 1 tl.length]
    · rw [hfold, ihh.2.1]
      simp only [hg1, List.filter_filter]
      refine List.filter_congr ?_
      intro n _
      simp only [List.contains_cons, Bool.not_or]
      cases h1 : n.id == nid <;> cases h2 : tl.contains n.id <;> rfl
    · rw [hfold, ihh.2.2]
      simp only [hg1, List.filter_filter]
      refine List.filter_congr ?_
      intro r _
      simp only [List.contains_cons, Bool.not_or]
      cases h1 : r.sourceId == nid <;> cases h2 : tl.contains r.sourceId <;>
        cases h3 : r.targetId == nid <;> cases h4 : tl.contains r.targetId <;> rfl

/-- Claim C7: for every graph whose node ids are unique and every path
`p`, `removeNodesByFile p` removes exactly the nodes whose
`properties.filePath` equals `p` together with every edge incident to a
removed node, returns the number of removed nodes, and leaves all other
nodes and edges (and their order) unchanged. -/
theorem removeNodesByFile_spec (g : KnowledgeGraph) (p : String)
    (h : (g.nodes.map (fun n => n.id)).Nodup) :
    (removeNodesByFile g p).1
        = (g.nodes.filter (fun n => n.properties.filePath == p)).length ∧
    (removeNodesByFile g p).2.nodes
        = g.nodes.filter (fun n => !(n.properties.filePath == p)) ∧
    (removeNodesByFile g p).2.rels
        = g.rels.filter (fun r =>
            !((removedIdSet g p).contains r.sourceId) &&
            !((removedIdSet g p).contains r.targetId)) := by
  have hsub : (removedIdSet g p).Sublist (g.nodes.map (fun n => n.id)) :=
    List.Sublist.map _ (List.filter_sublist g.nodes)
  have hnd : (removedIdSet g p).Nodup := h.sublist hsub
  have hpres : ∀ nid ∈ removedIdSet g p, containsNodeId g nid = true := by
    intro nid hmem
    rcases List.mem_map.mp hmem with ⟨n, hn, hid⟩
    exact List.any_eq_true.mpr
      ⟨n, List.mem_of_mem_filter hn, by simp [hid]⟩
  have hm := foldl_removeStep_spec (removedIdSet g p) 0 g hnd hpres
  have hcontains : ∀ n ∈ g.nodes,
      (removedIdSet g p).contains n.id = (n.properties.filePath == p) := by
    intro n hn
    cases hfp : n.properties.filePath == p with
    | true =>
      have hmem2 : n ∈ g.nodes.filter (fun n => n.properties.filePath == p) :=
        List.mem_filter.mpr ⟨hn, hfp⟩
      have hmemid : n.id ∈ removedIdSet g p := by
        rw [removedIdSet]
        exact List.mem_map.mpr ⟨n, hmem2, rfl⟩
      exact List.elem_iff.mpr hmemid
    | false =>
      cases hc : (removedIdSet g p).contains n.id with
      | true =>
        exfalso
        have hmemid : n.id ∈ removedIdSet g p := List.elem_iff.mp hc
        rw [removedIdSet] at hmemid
        rcases List.mem_map.mp hmemid with ⟨m, hm2, hid⟩
        have hmn : m = n :=
          List.inj_on_of_nodup_map h (List.mem_of_mem_filter hm2) hn hid
        have hfil : (m.properties.filePath == p) = true := (List.mem_filter.mp hm2).2
        rw [hmn, hfp] at hfil
        exact Bool.false_ne_true hfil
      | false => rfl
  refine ⟨?_, ?_, hm.2.2⟩
  · rw [removeNodesByFile, hm.1, removedIdSet, List.length_map, Nat.zero_add]
  · rw [removeNodesByFile, hm.2.1]
    refine List.filter_congr ?_
    intro n hn
    rw [hcontains n hn]

/-- Concrete graph for the C7 witness: two nodes in `src/foo.ts`, one in
`src/bar.ts`, one cross-file edge. -/
def graphC7 : KnowledgeGraph :=
  ⟨[⟨"fn:a", "Function", ⟨"a", "src/foo.ts", false⟩⟩,
    ⟨"fn:b", "Function", ⟨"b", "src/foo.ts", false⟩⟩,
    ⟨"fn:c", "Function", ⟨"c", "src/bar.ts", false⟩⟩],
   [⟨"fn:a", "fn:c", "CALLS", 1, ""⟩]⟩

/-- Witness for C7 at a concrete graph. -/
theorem removeNodesByFile_spec_witness :
    (removeNodesByFile graphC7 "src/foo.ts").1
        = (graphC7.nodes.filter (fun n => n.properties.filePath == "src/foo.ts")).length ∧
    (removeNodesByFile graphC7 "src/foo.ts").2.nodes
        = graphC7.nodes.filter (fun n => !(n.properties.filePath == "src/foo.ts")) ∧
    (removeNodesByFile graphC7 "src/foo.ts").2.rels
        = graphC7.rels.filter (fun r =>
            !((removedIdSet graphC7 "src/foo.ts").contains r.sourceId) &&
            !((removedIdSet graphC7 "src/foo.ts").contains r.targetId)) :=
  removeNodesByFile_spec graphC7 "src/foo.ts" (by decide)

/-! ## Symbol table, import map and call processor (C6, C7, C9)

Modelled from the spec: `src/core/ingestion/symbol-table.ts`,
`src/core/ingestion/import-processor.ts` and
`src/core/ingestion/call-processor.ts` are not part of the source tree
(only their unit tests are).  The symbol table of spec section 4.5 keeps
an exact `(filePath, name) → nodeId` index with last-writer-wins and an
append-only fuzzy `name → hits` index; both are represented by one
insertion-ordered entry list.  The call processor of spec section 4.8
turns each extracted call site into at most one CALLS edge by the
resolution order same-file, import-resolved, fuzzy-global. -/

/-- One `add` record of the symbol table. -/
structure SymbolEntry where
  filePath : String
  name : String
  nodeId : String
  kind : String
  deriving DecidableEq, Repr

/-- Insertion-ordered symbol table. -/
abbrev SymbolTable := List SymbolEntry

/-- Lookup `lookupExact`: last writer wins on `(filePath, name)`. -/
def lookupExact (st : SymbolTable) (fp nm : String) : Option String :=
  ((st.filter (fun e => e.filePath == fp && e.name == nm)).getLast?).map
    (fun e => e.nodeId)

/-- Lookup `lookupFuzzy`: all entries of the given name, in insertion order. -/
def lookupFuzzy (st : SymbolTable) (nm : String) : List SymbolEntry :=
  st.filter (fun e => e.name == nm)

/-- Type `ImportMap`: from-file to its resolved import targets in insertion
order. -/
abbrev ImportMap := List (String × List String)

/-- Import targets of the caller file (empty when the file has none). -/
def importTargets (im : ImportMap) (fp : String) : List String :=
  ((im.find? (fun e => e.1 == fp)).map (fun e => e.2)).getD []

/-- Record `ExtractedCall` of the parse worker. -/
structure ExtractedCall where
  filePath : String
  calledName : String
  sourceId : String
  deriving DecidableEq, Repr

/-- Modelled from the spec (section 4.8): resolve one call site to
`(targetId, confidence, reason)`, first matching rule wins; confidence
0.85 same-file, 0.90 import-resolved, 0.50 unique fuzzy, 0.30 ambiguous
fuzzy; no match resolves to nothing. -/
def resolveCall (st : SymbolTable) (im : ImportMap) (c : ExtractedCall) :
    Option (String × ℚ × String) :=
  match lookupExact st c.filePath c.calledName with
  | some t => some (t, 85/100, "same-file")
  | none =>
    match (importTargets im c.filePath).findSome?
        (fun tf => lookupExact st tf c.calledName) with
    | some t => some (t, 9/10, "import-resolved")
    | none =>
      match lookupFuzzy st c.calledName with
      | [] => none
      | hit :: rest =>
        some (hit.nodeId, if rest.isEmpty then 1/2 else 3/10, "fuzzy-global")

/-- Modelled from the spec: `processCallsFromExtracted` folds the call
sites over the graph, adding one CALLS edge per resolved site. -/
def processCallsFromExtracted (g : KnowledgeGraph) (calls : List ExtractedCall)
    (st : SymbolTable) (im : ImportMap) : KnowledgeGraph :=
  calls.foldl (fun acc c =>
    match resolveCall st im c with
    | none => acc
    | some (t, conf, reason) => addRelationship acc ⟨c.sourceId, t, "CALLS", conf, reason⟩) g

/-- Adding one relationship grows the edge count by at most one. -/
theorem relationshipCount_addRelationship_le (g : KnowledgeGraph) (r : GraphRelationship) :
    relationshipCount (addRelationship g r) ≤ relationshipCount g + 1 := by
  rw [addRelationship]
  cases h : containsRelKey g r
  · simp [relationshipCount]
  · simp [relationshipCount]

/-- Claim C1: each extracted call site yields at most one CALLS edge,
chosen by the first matching rule in the order same-file (0.85), then
import-resolved through the import map of the caller (0.90), then fuzzy-global
(0.50 unique / 0.30 ambiguous, first fuzzy hit); a site matching no rule
yields no edge and no error, and the total number of emitted edges never
exceeds the number of call sites. -/
theorem processCallsFromExtracted_resolution_order :
    (∀ (st : SymbolTable) (im : ImportMap) (c : ExtractedCall) (t : String),
      lookupExact st c.filePath c.calledName = some t →
      resolveCall st im c = some (t, 85/100, "same-file")) ∧
    (∀ (st : SymbolTable) (im : ImportMap) (c : ExtractedCall) (t : String),
      lookupExact st c.filePath c.calledName = none →
      (importTargets im c.filePath).findSome? (fun tf => lookupExact st tf c.calledName)
        = some t →
      resolveCall st im c = some (t, 9/10, "import-resolved")) ∧
    (∀ (st : SymbolTable) (im : ImportMap) (c : ExtractedCall)
        (hit : SymbolEntry) (rest : List SymbolEntry),
      lookupExact st c.filePath c.calledName = none →
      (importTargets im c.filePath).findSome? (fun tf => lookupExact st tf c.calledName)
        = none →
      lookupFuzzy st c.calledName = hit :: rest →
      resolveCall st im c
        = some (hit.nodeId, if rest.isEmpty then 1/2 else 3/10, "fuzzy-global")) ∧
    (∀ (st : SymbolTable) (im : ImportMap) (c : ExtractedCall),
      lookupExact st c.filePath c.calledName = none →
      (importTargets im c.filePath).findSome? (fun tf => lookupExact st tf c.calledName)
        = none →
      lookupFuzzy st c.calledName = [] →
      resolveCall st im c = none) ∧
    (∀ (g : KnowledgeGraph) (calls : List ExtractedCall) (st : SymbolTable) (im : ImportMap),
      relationshipCount (processCallsFromExtracted g calls st im)
        ≤ relationshipCount g + calls.length) := by
  refine ⟨?_, ?_, ?_, ?_, ?_⟩
  · intro st im c t h
    rw [resolveCall, h]
  · intro st im c t h1 h2
    rw [resolveCall, h1, h2]
  · intro st im c hit rest h1 h2 h3
    rw [resolveCall, h1, h2, h3]
  · intro st im c h1 h2 h3
    rw [resolveCall, h1, h2, h3]
  · intro g calls
    induction calls generalizing g with
    | nil =>
      intro st im
      simp [processCallsFromExtracted, relationshipCount]
    | cons c cs ih =>
      intro st im
      have hstep : ∀ g' : KnowledgeGraph,
          relationshipCount
            (match resolveCall st im c with
             | none => g'
             | some (t, conf, reason) =>
                addRelationship g' ⟨c.sourceId, t, "CALLS", conf, reason⟩)
            ≤ relationshipCount g' + 1 := by
        intro g'
        cases resolveCall st im c with
        | none => exact Nat.le_succ _
        | some v =>
          obtain ⟨t, conf, reason⟩ := v
          exact relationshipCount_addRelationship_le g' _
      have h1 := ih
        (match resolveCall st im c with
         | none => g
         | some (t, conf, reason) =>
            addRelationship g ⟨c.sourceId, t, "CALLS", conf, reason⟩) st im
      have h2 := hstep g
      calc relationshipCount (processCallsFromExtracted g (c :: cs) st im)
          ≤ relationshipCount
              (match resolveCall st im c with
               | none => g
               | some (t, conf, reason) =>
                  addRelationship g ⟨c.sourceId, t, "CALLS", conf, reason⟩) + cs.length := h1
        _ ≤ relationshipCount g + 1 + cs.length := Nat.add_le_add_right h2 _
        _ = relationshipCount g + (c :: cs).length := by
            simp [List.length_cons]
            omega

/-- Concrete symbol table exercising every resolution rule (the scenarios
of the call-processor unit tests). -/
def symbolTableC1 : SymbolTable :=
  [⟨"src/index.ts", "helper", "Function:src/index.ts:helper", "Function"⟩,
   ⟨"src/utils.ts", "format", "Function:src/utils.ts:format", "Function"⟩,
   ⟨"src/other.ts", "uniqueFunc", "Function:src/other.ts:uniqueFunc", "Function"⟩,
   ⟨"src/a.ts", "render", "Function:src/a.ts:render", "Function"⟩,
   ⟨"src/b.ts", "render", "Function:src/b.ts:render", "Function"⟩]

def importMapC1 : ImportMap := [("src/index.ts", ["src/utils.ts"])]

def callSameFile : ExtractedCall := ⟨"src/index.ts", "helper", "Function:src/index.ts:main"⟩

def callImported : ExtractedCall := ⟨"src/index.ts", "format", "Function:src/index.ts:main"⟩

def callFuzzyUnique : ExtractedCall := ⟨"src/index.ts", "uniqueFunc", "Function:src/index.ts:main"⟩

def callFuzzyAmbig : ExtractedCall := ⟨"src/index.ts", "render", "Function:src/index.ts:main"⟩

def callUnresolved : ExtractedCall := ⟨"src/index.ts", "nonExistent", "Function:src/index.ts:main"⟩

/-- Witness for C1: all five rules at concrete inputs. -/
theorem processCallsFromExtracted_resolution_order_witness :
    resolveCall symbolTableC1 importMapC1 callSameFile
      = some ("Function:src/index.ts:helper", 85/100, "same-file") ∧
    resolveCall symbolTableC1 importMapC1 callImported
      = some ("Function:src/utils.ts:format", 9/10, "import-resolved") ∧
    resolveCall symbolTableC1 importMapC1 callFuzzyUnique
      = some ("Function:src/other.ts:uniqueFunc", 1/2, "fuzzy-global") ∧
    resolveCall symbolTableC1 importMapC1 callFuzzyAmbig
      = some ("Function:src/a.ts:render", 3/10, "fuzzy-global") ∧
    resolveCall symbolTableC1 importMapC1 callUnresolved = none ∧
    relationshipCount (processCallsFromExtracted emptyGraph
        [callSameFile, callImported, callFuzzyUnique, callFuzzyAmbig, callUnresolved]
        symbolTableC1 importMapC1)
      ≤ relationshipCount emptyGraph + 5 := by
  refine ⟨?_, ?_, ?_, ?_, ?_, ?_⟩
  · exact processCallsFromExtracted_resolution_order.1 symbolTableC1 importMapC1
      callSameFile _ (by rfl)
  · exact processCallsFromExtracted_resolution_order.2.1 symbolTableC1 importMapC1
      callImported _ (by rfl) (by rfl)
  · exact processCallsFromExtracted_resolution_order.2.2.1 symbolTableC1 importMapC1
      callFuzzyUnique ⟨"src/other.ts", "uniqueFunc", "Function:src/other.ts:uniqueFunc", "Function"⟩
      [] (by rfl) (by rfl) (by rfl)
  · exact processCallsFromExtracted_resolution_order.2.2.1 symbolTableC1 importMapC1
      callFuzzyAmbig ⟨"src/a.ts", "render", "Function:src/a.ts:render", "Function"⟩
      [⟨"src/b.ts", "render", "Function:src/b.ts:render", "Function"⟩]
      (by rfl) (by rfl) (by rfl)
  · exact processCallsFromExtracted_resolution_order.2.2.2.1 symbolTableC1 importMapC1
      callUnresolved (by rfl) (by rfl) (by rfl)
  · exact processCallsFromExtracted_resolution_order.2.2.2.2 emptyGraph
      [callSameFile, callImported, callFuzzyUnique, callFuzzyAmbig, callUnresolved]
      symbolTableC1 importMapC1

/-! ## Entry-point scorer (C12)

Modelled from the spec: `src/core/ingestion/entry-point-scoring.ts` is
not part of the source tree (only its unit tests are).  The scorer of
spec section 4.11 starts from `calleeCount / (callerCount + 1)` and
multiplies in export (2.0), entry-name (1.5), utility-name (0.3) and
framework factors, collecting a reason string per applied factor.  The
name-pattern sets follow the lists of the spec; the per-language additions are
modelled from the documented examples (React hooks, Python REST verbs,
Java servlet prefixes, Go constructors, Rust handlers, Swift lifecycle,
PHP resource methods, C# verb prefixes). -/

/-- First `n` characters of a string. -/
def takeChars (s : String) (n : Nat) : String := ⟨s.data.take n⟩

def universalEntryNames : List String :=
  ["main", "init", "bootstrap", "start", "run", "setup", "configure"]

def entryPrefixes : List String :=
  ["handle", "on", "process", "execute", "perform", "dispatch", "trigger", "fire", "emit"]

def entrySuffixes : List String := ["Handler", "Controller"]

/-- Modelled from the spec: per-language entry-name additions. -/
def languageEntryMatch (language name : String) : Bool :=
  if language == "typescript" || language == "javascript" then
    strStartsWith name "use"
  else if language == "python" then
    strStartsWith name "get_" || strStartsWith name "post_" ||
    strStartsWith name "put_" || strStartsWith name "delete_"
  else if language == "java" then
    strStartsWith name "do"
  else if language == "go" then
    strStartsWith name "New"
  else if language == "rust" then
    strStartsWith name "handle_"
  else if language == "swift" then
    name == "viewDidLoad" || name == "viewWillAppear" || name == "body"
  else if language == "php" then
    name == "handle" || name == "index" || name == "show" ||
    name == "store" || name == "update" || name == "destroy"
  else if language == "csharp" then
    strStartsWith name "Get" || strStartsWith name "Post" ||
    strStartsWith name "Put" || strStartsWith name "Delete"
  else false

/-- An entry-pattern match: universal names, prefixes, suffixes, or the
language-specific additions. -/
def matchesEntryPattern (language name : String) : Bool :=
  universalEntryNames.contains name ||
  entryPrefixes.any (fun p => strStartsWith name p) ||
  entrySuffixes.any (fun p => strEndsWith name p) ||
  languageEntryMatch language name

def utilityPrefixes : List String :=
  ["get", "set", "is", "has", "can", "format", "parse", "validate",
   "to", "from", "encode", "serialize", "clone", "merge"]

/-- A utility-pattern match: utility prefixes or private-by-convention
leading underscore. -/
def matchesUtilityPattern (name : String) : Bool :=
  utilityPrefixes.any (fun p => strStartsWith name p) || strStartsWith name "_"

/-- Result of `calculateEntryPointScore`. -/
structure EntryPointScore where
  score : ℚ
  reasons : List String
  deriving DecidableEq, Repr

/-- Modelled from the spec (section 4.11): `calculateEntryPointScore`. -/
def calculateEntryPointScore (name language : String) (isExported : Bool)
    (callerCount calleeCount : Nat) (filePath astText : Option String) :
    EntryPointScore :=
  if calleeCount = 0 then ⟨0, ["no-outgoing-calls"]⟩
  else
    let base : ℚ := (calleeCount : ℚ) / ((callerCount : ℚ) + 1)
    let s1 := if isExported then base * 2 else base
    let r1 : List String := if isExported then ["exported"] else []
    let s2 := if matchesEntryPattern language name then s1 * (3/2) else s1
    let r2 := r1 ++ (if matchesEntryPattern language name then ["entry-pattern"] else [])
    let s3 := if matchesUtilityPattern name then s2 * (3/10) else s2
    let r3 := r2 ++ (if matchesUtilityPattern name then ["utility-pattern"] else [])
    let hint1 := filePath.bind (fun fp => detectFrameworkFromPath fp)
    let s4 := match hint1 with
      | some h => s3 * h.entryPointMultiplier
      | none => s3
    let r4 := r3 ++ (match hint1 with
      | some h => ["framework:" ++ h.reason]
      | none => [])
    let hint2 := astText.bind (fun t => detectFrameworkFromAST language (takeChars t 300))
    let s5 := match hint2 with
      | some h => s4 * h.entryPointMultiplier
      | none => s4
    ⟨s5, r4⟩

/-- Claim C2: with no path or AST input, `calculateEntryPointScore`
returns score 0 with reason no-outgoing-calls when `calleeCount` is 0;
otherwise the score is `calleeCount / (callerCount + 1)` multiplied by
2.0 when exported (reason exported), by 1.5 on an entry-pattern name
(reason entry-pattern) and by 0.3 on a utility-pattern name (reason
utility-pattern). -/
theorem calculateEntryPointScore_spec (name language : String) (isExported : Bool)
    (callerCount calleeCount : Nat) :
    (calleeCount = 0 →
      (calculateEntryPointScore name language isExported callerCount calleeCount none none).score = 0 ∧
      "no-outgoing-calls" ∈
        (calculateEntryPointScore name language isExported callerCount calleeCount none none).reasons) ∧
    (calleeCount ≠ 0 →
      (calculateEntryPointScore name language isExported callerCount calleeCount none none).score
        = (calleeCount : ℚ) / ((callerCount : ℚ) + 1)
          * (if isExported then 2 else 1)
          * (if matchesEntryPattern language name then 3/2 else 1)
          * (if matchesUtilityPattern name then 3/10 else 1) ∧
      ("exported" ∈
        (calculateEntryPointScore name language isExported callerCount calleeCount none none).reasons
        ↔ isExported = true) ∧
      ("entry-pattern" ∈
        (calculateEntryPointScore name language isExported callerCount calleeCount none none).reasons
        ↔ matchesEntryPattern language name = true) ∧
      ("utility-pattern" ∈
        (calculateEntryPointScore name language isExported callerCount calleeCount none none).reasons
        ↔ matchesUtilityPattern name = true)) := by
  constructor
  · intro h0
    simp [calculateEntryPointScore, h0]
  · intro hne
    cases hE : isExported <;>
      cases hP : matchesEntryPattern language name <;>
        cases hU : matchesUtilityPattern name <;>
          refine ⟨?_, ?_, ?_, ?_⟩ <;>
            simp [calculateEntryPointScore, hne, hE, hP, hU]

/-- Witness for C2: the zero-callee case at `handler` and the
multiplicative case at `doStuff` with five callees. -/
theorem calculateEntryPointScore_spec_witness :
    ((calculateEntryPointScore "handler" "typescript" true 0 0 none none).score = 0 ∧
      "no-outgoing-calls" ∈
        (calculateEntryPointScore "handler" "typescript" true 0 0 none none).reasons) ∧
    ((calculateEntryPointScore "doStuff" "typescript" false 0 5 none none).score
        = ((5 : Nat) : ℚ) / (((0 : Nat) : ℚ) + 1)
          * (if false then 2 else 1)
          * (if matchesEntryPattern "typescript" "doStuff" then 3/2 else 1)
          * (if matchesUtilityPattern "doStuff" then 3/10 else 1) ∧
      ("exported" ∈
        (calculateEntryPointScore "doStuff" "typescript" false 0 5 none none).reasons
        ↔ false = true)) := by
  have h1 := (calculateEntryPointScore_spec "handler" "typescript" true 0 0).1 rfl
  have h2 := (calculateEntryPointScore_spec "doStuff" "typescript" false 0 5).2 (by decide)
  exact ⟨⟨h1.1, h1.2⟩, h2.1, h2.2.1⟩

/-! ## Process processor (C14)

Modelled from the spec: `src/core/ingestion/process-processor.ts` is not
part of the source tree (only its unit tests are).  Following spec
section 4.13, traversal walks CALLS edges of confidence at least
`MIN_TRACE_CONFIDENCE = 0.5` depth-first with a per-trace visited set and
a depth cap, greedily taking at a branching node the edge of highest
confidence (ties by callee entry score, then insertion order); a trace is
accepted when it reaches `minSteps` and at most `maxProcesses` processes
are kept.  The relative entry threshold ("top-N per community") is left
under-constrained by the spec; entries are modelled as every non-test
symbol node, which only enlarges the enumerated set and does not weaken
the per-process invariants proved below.  Rational literals are written
with `mkRat` so that the model evaluates inside the kernel. -/

/-- Membership record produced by the community processor. -/
structure CommunityMembership where
  nodeId : String
  communityId : String
  deriving DecidableEq, Repr

/-- Record `ProcessDetectionConfig` with `maxTraceDepth`, `minSteps`,
`maxProcesses`. -/
structure ProcessDetectionConfig where
  maxTraceDepth : Nat
  minSteps : Nat
  maxProcesses : Nat
  deriving DecidableEq, Repr

/-- Spec defaults: depth cap 8, at least 3 steps; the process cap default
is not explicit in the source, 10 is used here. -/
def defaultProcessConfig : ProcessDetectionConfig := ⟨8, 3, 10⟩

/-- A detected process. -/
structure ProcessRec where
  id : String
  heuristicLabel : String
  processType : String
  stepCount : Nat
  communities : List String
  entryPointId : String
  terminalId : String
  trace : List String
  deriving DecidableEq, Repr

/-- Modelled from the spec: `isTestFile` (spec section 4.11), matched on
the lowercased, slash-normalised path. -/
def isTestFile (filePath : String) : Bool :=
  let p := lowerStr (slashify filePath)
  strIncludes p ".test." || strIncludes p ".spec." ||
  strIncludes p "__tests__" || strIncludes p "__mocks__" ||
  strIncludes p "/test/" || strIncludes p "/tests/" || strIncludes p "/testing/" ||
  strEndsWith p "_test.go" || strEndsWith p "_test.py" ||
  strEndsWith p "tests.swift" || strIncludes p ".tests/" ||
  strIncludes p "tests/feature/" || strIncludes p "tests/unit/"

def MIN_TRACE_CONFIDENCE : ℚ := mkRat 1 2

def callerCountOf (g : KnowledgeGraph) (nid : String) : Nat :=
  (g.rels.filter (fun r => r.type == "CALLS" && r.targetId == nid)).length

def calleeCountOf (g : KnowledgeGraph) (nid : String) : Nat :=
  (g.rels.filter (fun r => r.type == "CALLS" && r.sourceId == nid)).length

/-- Language tag string of a file, via the classifier. -/
def languageTagOf (fp : String) : String :=
  match getLanguageFromFilename fp with
  | some .TypeScript => "typescript"
  | some .JavaScript => "javascript"
  | some .Python => "python"
  | some .Java => "java"
  | some .C => "c"
  | some .CPlusPlus => "cpp"
  | some .CSharp => "csharp"
  | some .Go => "go"
  | some .Rust => "rust"
  | some .Kotlin => "kotlin"
  | some .PHP => "php"
  | none => ""

/-- Entry-point score of a node inside the graph. -/
def entryScoreOf (g : KnowledgeGraph) (nid : String) : ℚ :=
  match getNode g nid with
  | none => 0
  | some n =>
    (calculateEntryPointScore n.properties.name (languageTagOf n.properties.filePath)
      n.properties.isExported (callerCountOf g nid) (calleeCountOf g nid)
      (some n.properties.filePath) none).score

/-- Outgoing CALLS edges usable from `current`: confidence at least 0.5
and an unvisited target. -/
def eligibleEdges (g : KnowledgeGraph) (current : String) (visited : List String) :
    List GraphRelationship :=
  g.rels.filter (fun r =>
    r.type == "CALLS" && r.sourceId == current &&
    decide (MIN_TRACE_CONFIDENCE ≤ r.confidence) && !(visited.contains r.targetId))

/-- Greedy choice between the best edge so far and a later candidate:
higher confidence wins, ties go to the higher callee entry score, and a
full tie keeps the earlier edge (insertion order). -/
def pickBetter (g : KnowledgeGraph) (best cand : GraphRelationship) : GraphRelationship :=
  if best.confidence < cand.confidence then cand
  else if best.confidence = cand.confidence ∧
      entryScoreOf g best.targetId < entryScoreOf g cand.targetId then cand
  else best

/-- The next node of the trace, when any edge is eligible. -/
def pickNext (g : KnowledgeGraph) (current : String) (visited : List String) :
    Option String :=
  match eligibleEdges g current visited with
  | [] => none
  | e :: rest => some ((rest.foldl (pickBetter g) e).targetId)

/-- Depth-first greedy extension of a trace, depth-capped by the fuel. -/
def extendTrace (g : KnowledgeGraph) : Nat → String → List String → List String
  | 0, _, _ => []
  | Nat.succ fuel, current, visited =>
    match pickNext g current visited with
    | none => []
    | some nxt => nxt :: extendTrace g fuel nxt (nxt :: visited)

/-- A full trace from an entry node (the entry is step 1). -/
def buildTrace (g : KnowledgeGraph) (cfg : ProcessDetectionConfig) (entry : String) :
    List String :=
  entry :: extendTrace g (cfg.maxTraceDepth - 1) entry [entry]

def communityOf (ms : List CommunityMembership) (nid : String) : Option String :=
  (ms.find? (fun m => m.nodeId == nid)).map (fun m => m.communityId)

/-- Distinct values in first-occurrence order. -/
def dedupKeepFirst (l : List String) : List String :=
  l.foldl (fun acc x => if acc.contains x then acc else acc ++ [x]) []

def nameOf (g : KnowledgeGraph) (nid : String) : String :=
  match getNode g nid with
  | some n => n.properties.name
  | none => ""

/-- Uppercase the first character, as in the label heuristic. -/
def pascalCase (s : String) : String :=
  match s.data with
  | [] => ""
  | c :: cs => ⟨c.toUpper :: cs⟩

/-- Non-File/Folder/derived labels are symbols. -/
def isSymbolLabel (label : String) : Bool :=
  !(label == "File" || label == "Folder" || label == "Community" || label == "Process")

/-- Materialise one accepted trace as a `Process`. -/
def mkProcess (g : KnowledgeGraph) (ms : List CommunityMembership) (t : List String) :
    ProcessRec :=
  let entry := t.headD ""
  let terminal := t.getLastD ""
  let comms := dedupKeepFirst (t.filterMap (communityOf ms))
  { id := "process:" ++ entry,
    heuristicLabel := pascalCase (nameOf g entry) ++ " → " ++ pascalCase (nameOf g terminal),
    processType := if comms.length ≤ 1 then "intra_community" else "cross_community",
    stepCount := t.length,
    communities := comms,
    entryPointId := entry,
    terminalId := terminal,
    trace := t }

/-- Modelled from the spec (section 4.13): `processProcesses` builds one
greedy trace per candidate entry, keeps traces of at least `minSteps`
steps and caps the result at `maxProcesses`. -/
def processProcesses (g : KnowledgeGraph) (memberships : List CommunityMembership)
    (cfg : ProcessDetectionConfig) : List ProcessRec :=
  let candidates := g.nodes.filter
    (fun n => isSymbolLabel n.label && !(isTestFile n.properties.filePath))
  let traces := candidates.map (fun n => buildTrace g cfg n.id)
  let accepted := traces.filter (fun t => cfg.minSteps ≤ t.length)
  (accepted.take cfg.maxProcesses).map (fun t => mkProcess g memberships t)

/-- The greedy fold over candidate edges returns one of them. -/
theorem foldl_pickBetter_mem (g : KnowledgeGraph) :
    ∀ (rest : List GraphRelationship) (e : GraphRelationship),
    rest.foldl (pickBetter g) e ∈ e :: rest := by
  intro rest
  induction rest with
  | nil => intro e; exact List.mem_cons_self e []
  | cons c cs ih =>
    intro e
    have hstep : pickBetter g e c = e ∨ pickBetter g e c = c := by
      rw [pickBetter]
      by_cases h1 : e.confidence < c.confidence
      · rw [if_pos h1]; exact Or.inr rfl
      · rw [if_neg h1]
        by_cases h2 : e.confidence = c.confidence ∧
            entryScoreOf g e.targetId < entryScoreOf g c.targetId
        · rw [if_pos h2]; exact Or.inr rfl
        · rw [if_neg h2]; exact Or.inl rfl
    have hmem := ih (pickBetter g e c)
    rw [List.foldl_cons]
    rcases List.mem_cons.mp hmem with heq | hcs
    · rcases hstep with he | hc
      · rw [heq, he]; exact List.mem_cons_self e (c :: cs)
      · rw [heq, hc]
        exact List.mem_cons_of_mem e (List.mem_cons_self c cs)
    · exact List.mem_cons_of_mem e (List.mem_cons_of_mem c hcs)

/-- Whatever `pickNext` returns was never visited. -/
theorem pickNext_not_visited (g : KnowledgeGraph) (current : String)
    (visited : List String) (t : String) (h : pickNext g current visited = some t) :
    t ∉ visited := by
  rw [pickNext] at h
  cases hel : eligibleEdges g current visited with
  | nil => rw [hel] at h; exact absurd h (by simp)
  | cons e rest =>
    rw [hel] at h
    have hmem : rest.foldl (pickBetter g) e ∈ e :: rest := foldl_pickBetter_mem g rest e
    rw [← hel] at hmem
    have hfil := (List.mem_filter.mp hmem).2
    have ht : t = (rest.foldl (pickBetter g) e).targetId := (Option.some.inj h).symm
    intro hv
    simp at hfil
    exact hfil.2 (ht ▸ hv)

/-- The extension of a trace never revisits: its members avoid the
visited set and it is duplicate-free. -/
theorem extendTrace_nodup (g : KnowledgeGraph) :
    ∀ (fuel : Nat) (current : String) (visited : List String),
    (extendTrace g fuel current visited).Nodup ∧
    ∀ x ∈ extendTrace g fuel current visited, x ∉ visited := by
  intro fuel
  induction fuel with
  | zero =>
    intro current visited
    simp [extendTrace]
  | succ fuel ih =>
    intro current visited
    rw [extendTrace]
    cases hp : pickNext g current visited with
    | none => simp
    | some nxt =>
      have hnv : nxt ∉ visited := pickNext_not_visited g current visited nxt hp
      have ihh := ih nxt (nxt :: visited)
      constructor
      · refine List.nodup_cons.mpr ⟨?_, ihh.1⟩
        intro hmem
        exact (ihh.2 nxt hmem) (List.mem_cons_self nxt visited)
      · intro x hx
        rcases List.mem_cons.mp hx with hx1 | hx2
        · rw [hx1]; exact hnv
        · intro hv
          exact (ihh.2 x hx2) (List.mem_cons_of_mem nxt hv)

/-- A built trace is nonempty and duplicate-free. -/
theorem buildTrace_nodup (g : KnowledgeGraph) (cfg : ProcessDetectionConfig)
    (entry : String) : (buildTrace g cfg entry).Nodup := by
  rw [buildTrace]
  have h := extendTrace_nodup g (cfg.maxTraceDepth - 1) entry [entry]
  refine List.nodup_cons.mpr ⟨?_, h.1⟩
  intro hmem
  exact (h.2 entry hmem) (List.mem_cons_self entry [])

/-- Claim C3: process enumeration is a total function (it is defined by
depth-capped structural recursion, so it terminates on every input graph,
cyclic CALLS subgraphs included), keeps at most `maxProcesses` processes,
and every accepted process trace contains each node at most once, so
`stepCount` equals the number of distinct trace members. -/
theorem processProcesses_trace_nodup (g : KnowledgeGraph)
    (memberships : List CommunityMembership) (cfg : ProcessDetectionConfig) :
    (processProcesses g memberships cfg).length ≤ cfg.maxProcesses ∧
    ∀ p ∈ processProcesses g memberships cfg,
      p.trace ≠ [] ∧ p.trace.Nodup ∧ p.stepCount = p.trace.length ∧
      p.stepCount = p.trace.toFinset.card := by
  constructor
  · rw [processProcesses]
    simp only [List.length_map]
    exact List.length_take_le _ _
  · intro p hp
    rw [processProcesses] at hp
    rcases List.mem_map.mp hp with ⟨t, ht, hmk⟩
    have ht2 := List.mem_of_mem_take ht
    have ht3 := List.mem_filter.mp ht2
    rcases List.mem_map.mp ht3.1 with ⟨n, _, hbt⟩
    have hnd : t.Nodup := by rw [← hbt]; exact buildTrace_nodup g cfg n.id
    have hne : t ≠ [] := by
      rw [← hbt, buildTrace]
      exact List.cons_ne_nil _ _
    have htrace : p.trace = t := by rw [← hmk]; rfl
    have hstep : p.stepCount = t.length := by rw [← hmk]; rfl
    refine ⟨?_, ?_, ?_, ?_⟩
    · rw [htrace]; exact hne
    · rw [htrace]; exact hnd
    · rw [htrace, hstep]
    · rw [htrace, hstep]
      exact (List.toFinset_card_of_nodup hnd).symm

/-- The cycle scenario of the spec: `a → b → c → a`, all CALLS at
confidence 0.9. -/
def graphC3 : KnowledgeGraph :=
  ⟨[⟨"func:a", "Function", ⟨"processItem", "src/a.ts", true⟩⟩,
    ⟨"func:b", "Function", ⟨"validate", "src/b.ts", true⟩⟩,
    ⟨"func:c", "Function", ⟨"retry", "src/c.ts", true⟩⟩],
   [⟨"func:a", "func:b", "CALLS", mkRat 9 10, ""⟩,
    ⟨"func:b", "func:c", "CALLS", mkRat 9 10, ""⟩,
    ⟨"func:c", "func:a", "CALLS", mkRat 9 10, ""⟩]⟩

def membershipsC3 : List CommunityMembership :=
  [⟨"func:a", "community:0"⟩, ⟨"func:b", "community:0"⟩, ⟨"func:c", "community:0"⟩]

/-- The process detected from `func:a` on the cycle graph: the trace
stops before revisiting `func:a`. -/
def processC3 : ProcessRec :=
  ⟨"process:func:a", "ProcessItem → Retry", "intra_community", 3, ["community:0"],
   "func:a", "func:c", ["func:a", "func:b", "func:c"]⟩

/-- Witness for C3 on the cyclic graph. -/
theorem processProcesses_trace_nodup_witness :
    processC3 ∈ processProcesses graphC3 membershipsC3 defaultProcessConfig ∧
    processC3.trace ≠ [] ∧ processC3.trace.Nodup ∧
    processC3.stepCount = processC3.trace.length ∧
    processC3.stepCount = processC3.trace.toFinset.card := by
  have hmem : processC3 ∈ processProcesses graphC3 membershipsC3 defaultProcessConfig := by
    decide
  have h := (processProcesses_trace_nodup graphC3 membershipsC3 defaultProcessConfig).2
    processC3 hmem
  exact ⟨hmem, h.1, h.2.1, h.2.2.1, h.2.2.2⟩

/-! ## CSV serialisation (storage boundary)

Modelled from the spec: `src/core/kuzu/csv-generator.ts` is not part of
the source tree (only its unit tests are).  Per spec section 6, textual
fields are quoted with internal quotes doubled, while commas and
backslashes inside array elements are escaped as `\,` and `\\`; array
elements are joined by commas and the joined text is then quoted like any
scalar field. -/

/-- A JavaScript-ish field value: null, undefined, a string or a number. -/
inductive CSVValue where
  | vnull
  | vundef
  | vstr (s : String)
  | vnum (n : Int)
  deriving DecidableEq, Repr

/-- Null and undefined serialise like the empty string; numbers print in
decimal. -/
def csvValueToString : CSVValue → String
  | .vnull => ""
  | .vundef => ""
  | .vstr s => s
  | .vnum n => toString n

/-- Double every double-quote character, leave everything else alone. -/
def escQuotesChars : List Char → List Char
  | [] => []
  | c :: cs =>
    if c = '"' then '"' :: '"' :: escQuotesChars cs else c :: escQuotesChars cs

/-- Modelled from the spec: `escapeCSVField` wraps the printed value in
double quotes and doubles internal double quotes. -/
def escapeCSVField (v : CSVValue) : String :=
  "\"" ++ String.mk (escQuotesChars (csvValueToString v).data) ++ "\""

/-- Escape backslashes and commas inside one array element (`\\`, `\,`). -/
def escapeArrayElemChars : List Char → List Char
  | [] => []
  | c :: cs =>
    if c = '\\' then '\\' :: '\\' :: escapeArrayElemChars cs
    else if c = ',' then '\\' :: ',' :: escapeArrayElemChars cs
    else c :: escapeArrayElemChars cs

def escapeArrayElement (s : String) : String := ⟨escapeArrayElemChars s.data⟩

/-- Modelled from the spec: array fields join their escaped elements with
commas. -/
def serializeStringArray (xs : List String) : String :=
  String.intercalate "," (xs.map escapeArrayElement)

/-- The serialised keyword field of a Community row: the joined array
text quoted as a scalar field. -/
def communityKeywordsField (ks : List String) : String :=
  escapeCSVField (.vstr (serializeStringArray ks))

/-- Claim C8: serialising Community keywords `["auth","login","pass,word"]`
escapes the internal comma with a backslash: the joined array text is
`auth,login,pass\,word` and the persisted field contains the literal
character sequence `pass\,word`. -/
theorem communityKeywords_comma_escaped :
    serializeStringArray ["auth", "login", "pass,word"] = "auth,login,pass\\,word" ∧
    "pass\\,word".data <:+: (communityKeywordsField ["auth", "login", "pass,word"]).data := by
  constructor
  · rfl
  · decide

/-- Quote-free character lists pass through quote-doubling unchanged. -/
theorem escQuotesChars_id :
    ∀ l : List Char, (∀ c ∈ l, c ≠ '"') → escQuotesChars l = l := by
  intro l
  induction l with
  | nil => intro _; rfl
  | cons c cs ih =>
    intro h
    have hc : c ≠ '"' := h c (List.mem_cons_self c cs)
    rw [escQuotesChars, if_neg hc, ih (fun x hx => h x (List.mem_cons_of_mem c hx))]

/-- Claim C9: `escapeCSVField` wraps its input in double quotes and
doubles only internal double quotes: null, undefined and the empty string
all map to the two-character string of a pair of double quotes, internal
quotes are doubled, and every quote-free string — backslashes included —
passes through verbatim inside the quotes (no backslash doubling, unlike
array-element escaping). -/
theorem escapeCSVField_spec :
    escapeCSVField .vnull = "\"\"" ∧
    escapeCSVField .vundef = "\"\"" ∧
    escapeCSVField (.vstr "") = "\"\"" ∧
    escapeCSVField (.vstr "say \"hello\"") = "\"say \"\"hello\"\"\"" ∧
    (∀ s : String, (∀ c ∈ s.data, c ≠ '"') →
      escapeCSVField (.vstr s) = "\"" ++ s ++ "\"") := by
  refine ⟨rfl, rfl, rfl, rfl, ?_⟩
  intro s h
  show "\"" ++ String.mk (escQuotesChars s.data) ++ "\"" = "\"" ++ s ++ "\""
  rw [escQuotesChars_id s.data h]

/-- Witness for C9: the backslash path string passes through verbatim. -/
theorem escapeCSVField_spec_witness :
    escapeCSVField (.vstr "path\\to\\file") = "\"" ++ "path\\to\\file" ++ "\"" :=
  escapeCSVField_spec.2.2.2.2 "path\\to\\file" (by decide)

end GitNexus
